import Mathlib

/-!
Verification of the agent tool-use loop and the multi-agent orchestration
engine of the `makeitheavytypescript` repository.

The development shallowly embeds the TypeScript source:

* `src/agent.ts` (`OpenRouterAgent`): `handleToolCall` and the bounded
  agentic loop `run` become pure Lean functions.  The language model is an
  external collaborator, so `run` is parameterised by a script
  `llm : Nat → List ToolSchema → Except String AssistantMessage` giving, for
  each 1-based call number, either the assistant reply or a raised error;
  the call also receives the agent's tool-schema list exactly as
  `callLLM` passes `this.tools`.  `JSON.parse` of tool-call arguments is an
  external JavaScript builtin and is likewise a parameter
  `pa : String → Except String String`.
* `orchestrator.ts` (`TaskOrchestrator`): `decomposeTask`,
  `runAgentParallel`, `aggregateResults`, `aggregateConsensus` and
  `orchestrate` become pure Lean functions over an `OrchEnv` record that
  supplies the outcome of each external run (the question-generation
  agent's run, each sub-agent's run with its measured execution time, and
  the synthesis agent's model script).  `Promise.allSettled` settlements
  are modelled by the `Settled` type; since `runAgentParallel`'s whole body
  is inside `try`/`catch` returning an `AgentResult` on both paths, its
  promise always fulfills, and the dispatch step wraps every result in
  `Settled.fulfilled`.

JavaScript string primitives used by the source (`String.prototype.replace`
with a string pattern, `trim`, `Array.prototype.join`) are re-implemented
below with their JavaScript semantics (first occurrence only, whitespace
trimming, separator joining).
-/

/-- A tool-call request issued by the model: id, tool name, and the raw
JSON-encoded argument string (`toolCall.function.name` / `.arguments`). -/
structure ToolCall where
  id : String
  name : String
  arguments : String
deriving DecidableEq, Repr

/-- One assistant reply: optional text content and optional ordered list of
tool calls (`none` models a missing/`undefined` field; `some []` models a
present empty array, which is truthy in JavaScript). -/
structure AssistantMessage where
  content : Option String
  tool_calls : Option (List ToolCall)
deriving DecidableEq, Repr

/-- Payload of a tool-result message: either the serialized tool output
(`JSON.stringify(toolResult)`) or a serialized error object
(`JSON.stringify(\x7berror: ...\x7d)`). -/
inductive ToolContent where
  | result (payload : String)
  | error (message : String)
deriving DecidableEq, Repr

/-- A conversation message, mirroring the objects pushed onto `messages`
in `agent.ts`. -/
inductive Message where
  | system (content : String)
  | user (content : String)
  | assistant (content : Option String) (tool_calls : Option (List ToolCall))
  | tool (tool_call_id : String) (name : String) (content : ToolContent)
deriving DecidableEq, Repr

/-- Opaque representation of one entry of `this.tools` (an OpenRouter tool
schema); its structure is irrelevant to the loop, which only forwards the
list to the model. -/
abbrev ToolSchema := String

/-- The language-model collaborator: 1-based call number and the agent's
tool-schema list to either an assistant reply or a raised error. -/
abbrev LLMScript := Nat → List ToolSchema → Except String AssistantMessage

/-- The external `JSON.parse` applied to a tool call's argument string:
either the parsed arguments (kept opaque as a string) or a raised
`SyntaxError`. -/
abbrev ArgParser := String → Except String String

/-- One registered tool's `execute` function: parsed arguments to either a
result payload or a raised error. -/
abbrev ToolFn := String → Except String String

/-- The agent's `toolMapping` (`Map<string, fn>`), as an association list. -/
abbrev ToolMapping := List (String × ToolFn)

/-- `toolMapping.has`/`get`: first binding for the name, if any. -/
def lookupTool : ToolMapping → String → Option ToolFn
  | [], _ => none
  | (n, f) :: rest, name => if n = name then some f else lookupTool rest name

/-- `handleToolCall` from `agent.ts`: parse the arguments (a parse failure
is caught by the surrounding `try` and reported as `Tool execution failed`),
then look the tool up; a missing tool yields an `Unknown tool` error
payload, a raising tool a `Tool execution failed` error payload. -/
def handleToolCall (pa : ArgParser) (tm : ToolMapping) (tc : ToolCall) : Message :=
  match pa tc.arguments with
  | .error e => .tool tc.id tc.name (.error ("Tool execution failed: " ++ e))
  | .ok args =>
    match lookupTool tm tc.name with
    | some f =>
      match f args with
      | .ok payload => .tool tc.id tc.name (.result payload)
      | .error e => .tool tc.id tc.name (.error ("Tool execution failed: " ++ e))
    | none => .tool tc.id tc.name (.error ("Unknown tool: " ++ tc.name))

/-- `Array.prototype.join(sep)`. -/
def joinSep (sep : String) : List String → String
  | [] => ""
  | [s] => s
  | s :: rest => s ++ sep ++ joinSep sep rest

/-- The capture step `if (assistantMessage.content) fullResponseContent.push(...)`:
a missing or empty (falsy) content contributes nothing. -/
def contentPush : Option String → List String
  | some c => if c = "" then [] else [c]
  | none => []

/-- The fixed message returned when the iteration budget is exhausted with
no accumulated content. -/
def maxIterationsMessage : String :=
  "Maximum iterations reached. The agent may be stuck in a loop."

/-- The `for (const toolCall of assistantMessage.tool_calls)` body: handle
each call in order, pushing its tool-result message; if a call is named
`mark_task_complete` the loop returns immediately, so later calls of the
batch are not dispatched.  Returns the pushed messages and whether the
completion signal fired. -/
def dispatchToolCalls (pa : ArgParser) (tm : ToolMapping) :
    List ToolCall → List Message × Bool
  | [] => ([], false)
  | tc :: rest =>
    let msg := handleToolCall pa tm tc
    if tc.name = "mark_task_complete" then ([msg], true)
    else
      let out := dispatchToolCalls pa tm rest
      (msg :: out.1, out.2)

/-- The mutable state of one `run` invocation: the conversation and the
accumulated `fullResponseContent`. -/
structure RunState where
  messages : List Message
  fullResponseContent : List String
deriving Repr

/-- Observable outcome of (the remainder of) one `run` invocation: the
returned string or propagated error, the number of language-model calls
performed, and the final conversation. -/
structure RunOutcome where
  result : Except String String
  llmCalls : Nat
  finalMessages : List Message
deriving Repr

/-- The `while (iteration < maxIterations)` loop of `run`, with `fuel` the
remaining iterations and `iter` the iterations already performed (so the
next model call is call number `iter + 1`).  A model-call error is wrapped
as `LLM call failed: ...` (`callLLM`'s catch) and propagates. -/
def runLoop (llm : LLMScript) (pa : ArgParser) (tools : List ToolSchema)
    (tm : ToolMapping) : Nat → Nat → RunState → RunOutcome
  | 0, _, st =>
    ⟨.ok (if st.fullResponseContent.isEmpty then maxIterationsMessage
          else joinSep "\n\n" st.fullResponseContent), 0, st.messages⟩
  | fuel + 1, iter, st =>
    match llm (iter + 1) tools with
    | .error e => ⟨.error ("LLM call failed: " ++ e), 1, st.messages⟩
    | .ok am =>
      let msgs1 := st.messages ++ [Message.assistant am.content am.tool_calls]
      let frc1 := st.fullResponseContent ++ contentPush am.content
      match am.tool_calls with
      | some tcs =>
        let disp := dispatchToolCalls pa tm tcs
        if disp.2 then ⟨.ok (joinSep "\n\n" frc1), 1, msgs1 ++ disp.1⟩
        else
          let out := runLoop llm pa tools tm fuel (iter + 1) ⟨msgs1 ++ disp.1, frc1⟩
          ⟨out.result, out.llmCalls + 1, out.finalMessages⟩
      | none =>
        let out := runLoop llm pa tools tm fuel (iter + 1) ⟨msgs1, frc1⟩
        ⟨out.result, out.llmCalls + 1, out.finalMessages⟩

/-- The conversation `run` starts from: the configured system prompt and
the user input. -/
def initState (systemPrompt userInput : String) : RunState :=
  ⟨[Message.system systemPrompt, Message.user userInput], []⟩

/-- `OpenRouterAgent.run`: drive the loop for at most `maxIterations`
iterations from the initial two-message conversation. -/
def runAgent (llm : LLMScript) (pa : ArgParser) (tools : List ToolSchema)
    (tm : ToolMapping) (maxIterations : Nat)
    (systemPrompt userInput : String) : RunOutcome :=
  runLoop llm pa tools tm maxIterations 0 (initState systemPrompt userInput)

/-- JavaScript `String.prototype.replace` with a string pattern on character
lists: replace the first occurrence only. -/
def replaceFirstAux : List Char → List Char → List Char → List Char
  | [], pat, repl => if pat = [] then repl else []
  | c :: rest, pat, repl =>
    if pat.isPrefixOf (c :: rest) then repl ++ (c :: rest).drop pat.length
    else c :: replaceFirstAux rest pat repl

/-- JavaScript `String.prototype.replace(pattern, replacement)` with a
string pattern: replaces only the first occurrence. -/
def replaceFirst (s pat repl : String) : String :=
  ⟨replaceFirstAux s.data pat.data repl.data⟩

/-- JavaScript `String.prototype.trim`: strip whitespace from both ends. -/
def jsTrim (s : String) : String :=
  ⟨((s.data.dropWhile Char.isWhitespace).reverse.dropWhile Char.isWhitespace).reverse⟩

/-- The `AgentResult` record of `orchestrator.ts`. -/
structure AgentResult where
  agent_id : Nat
  status : String
  response : String
  execution_time : Nat
deriving DecidableEq, Repr

/-- One settlement of a promise, as reported by `Promise.allSettled`. -/
inductive Settled (α : Type) where
  | fulfilled (value : α)
  | rejected (reason : String)
deriving DecidableEq, Repr

/-- The orchestrator-relevant part of the configuration record. -/
structure OrchConfig where
  system_prompt : String
  max_iterations : Nat
  parallel_agents : Nat
  task_timeout : Nat
  aggregation_strategy : String
  question_generation_prompt : String
  synthesis_prompt : String

/-- External collaborators consumed by `TaskOrchestrator`: the
question-generation agent's run (its model interaction is opaque to the
orchestrator), `JSON.parse` of the decomposition reply, each sub-agent's
run and measured wall-clock duration, and the synthesis agent's model
script together with its argument parser. -/
structure OrchEnv where
  decomposeRun : String → Except String String
  parseQuestions : String → Except String (List String)
  subAgentRun : Nat → String → Except String String
  subAgentTime : Nat → Nat
  synthLLM : LLMScript
  synthParse : ArgParser

/-- The fixed fallback sub-task templates of `decomposeTask`, truncated by
`.slice(0, numAgents)`. -/
def fallbackSubtasks (userInput : String) (numAgents : Nat) : List String :=
  (["Research comprehensive information about: " ++ userInput,
    "Analyze and provide insights about: " ++ userInput,
    "Find alternative perspectives on: " ++ userInput,
    "Verify and cross-check facts about: " ++ userInput]).take numAgents

/-- `decomposeTask`: run the question-generation agent on the instantiated
prompt, `JSON.parse` its trimmed reply, and validate the question count;
any raised error or a wrong count falls back to the fixed template set. -/
def decomposeTask (env : OrchEnv) (cfg : OrchConfig)
    (userInput : String) (numAgents : Nat) : List String :=
  let generationPrompt :=
    replaceFirst (replaceFirst cfg.question_generation_prompt
      "\x7buser_input\x7d" userInput) "\x7bnum_agents\x7d" (toString numAgents)
  match env.decomposeRun generationPrompt with
  | .error _ => fallbackSubtasks userInput numAgents
  | .ok response =>
    match env.parseQuestions (jsTrim response) with
    | .error _ => fallbackSubtasks userInput numAgents
    | .ok questions =>
      if questions.length ≠ numAgents then fallbackSubtasks userInput numAgents
      else questions

/-- `runAgentParallel`: the whole body is inside `try`/`catch` and both
paths construct an `AgentResult`, so the returned promise always fulfills;
it is therefore a total function of the sub-agent's run outcome. -/
def runAgentParallel (env : OrchEnv) (agentId : Nat) (subtask : String) : AgentResult :=
  match env.subAgentRun agentId subtask with
  | .ok response => ⟨agentId, "success", response, env.subAgentTime agentId⟩
  | .error e => ⟨agentId, "error", "Error: " ++ e, 0⟩

/-- `subtasks.map((subtask, i) => this.runAgentParallel(i, subtask))`
followed by `Promise.allSettled`: since `runAgentParallel` never rejects,
every settlement is `fulfilled`. -/
def settledPromises (env : OrchEnv) : Nat → List String → List (Settled AgentResult)
  | _, [] => []
  | i, st :: rest =>
    .fulfilled (runAgentParallel env i st) :: settledPromises env (i + 1) rest

/-- `agentResults.map((result, i) => ...)` in `orchestrate`: a fulfilled
settlement yields its value; a rejected one is recorded with status
`timeout`, a placeholder response, and the configured task timeout. -/
def settleAll (taskTimeout : Nat) : Nat → List (Settled AgentResult) → List AgentResult
  | _, [] => []
  | i, s :: rest =>
    (match s with
     | .fulfilled v => v
     | .rejected reason =>
       ⟨i, "timeout", "Agent " ++ toString (i + 1) ++ " timed out or failed: " ++ reason,
        taskTimeout⟩) :: settleAll taskTimeout (i + 1) rest

/-- Insertion step of `results.sort((a, b) => a.agent_id - b.agent_id)`. -/
def insertById (r : AgentResult) : List AgentResult → List AgentResult
  | [] => [r]
  | x :: xs => if r.agent_id ≤ x.agent_id then r :: x :: xs else x :: insertById r xs

/-- `results.sort((a, b) => a.agent_id - b.agent_id)`: sort ascending by
`agent_id` (insertion sort; the comparator induces this order). -/
def sortByAgentId : List AgentResult → List AgentResult
  | [] => []
  | r :: rs => insertById r (sortByAgentId rs)

/-- The accumulation loop building `agentResponsesText` in
`aggregateConsensus`, starting at 0-based position `i`. -/
def buildAgentResponsesFrom : Nat → List String → String
  | _, [] => ""
  | i, r :: rest =>
    "=== AGENT " ++ toString (i + 1) ++ " RESPONSE ===\n" ++ r ++ "\n\n"
      ++ buildAgentResponsesFrom (i + 1) rest

/-- `agentResponsesText`: each response under its 1-indexed heading,
followed by a blank line. -/
def buildAgentResponses (responses : List String) : String :=
  buildAgentResponsesFrom 0 responses

/-- The instantiated synthesis prompt: the template with, first, the
response-count placeholder and then the agent-responses placeholder
replaced (first occurrence each, as `String.replace` does). -/
def synthesisPrompt (cfg : OrchConfig) (responses : List String) : String :=
  replaceFirst (replaceFirst cfg.synthesis_prompt
    "\x7bnum_responses\x7d" (toString responses.length))
    "\x7bagent_responses\x7d" (buildAgentResponses responses)

/-- The synthesis agent's run: a fresh agent whose `tools` array is set to
`[]` and whose `toolMapping` is cleared, run on the synthesis prompt with
the configured system prompt and iteration budget. -/
def runSynthesis (env : OrchEnv) (cfg : OrchConfig) (responses : List String) :
    Except String String :=
  (runAgent env.synthLLM env.synthParse [] [] cfg.max_iterations
    cfg.system_prompt (synthesisPrompt cfg responses)).result

/-- The `combined` array of the synthesis-failure fallback: for each
response a 1-indexed header line, the response, and an empty entry. -/
def combinedFallbackFrom : Nat → List String → List String
  | _, [] => []
  | i, r :: rest =>
    ("=== Agent " ++ toString (i + 1) ++ " Response ===") :: r :: ""
      :: combinedFallbackFrom (i + 1) rest

/-- The synthesis-failure fallback entries, from position 0. -/
def combinedFallback (responses : List String) : List String :=
  combinedFallbackFrom 0 responses

/-- `aggregateConsensus`: a single response is returned verbatim; otherwise
the synthesis agent is run, and if that run raises the fallback
concatenation (joined by newlines) is returned instead. -/
def aggregateConsensus (env : OrchEnv) (cfg : OrchConfig)
    (responses : List String) : String :=
  match responses with
  | [r] => r
  | _ =>
    match runSynthesis env cfg responses with
    | .ok finalAnswer => finalAnswer
    | .error _ => joinSep "\n" (combinedFallback responses)

/-- `aggregateResults`: keep the successful results; none at all yields the
fixed all-failed message; otherwise aggregate their responses (the
`consensus` strategy, to which every other strategy name also defaults). -/
def aggregateResults (env : OrchEnv) (cfg : OrchConfig)
    (agentResults : List AgentResult) : String :=
  let successfulResults := agentResults.filter (fun r => r.status == "success")
  if successfulResults.length = 0 then
    "All agents failed to provide results. Please try again."
  else
    let responses := successfulResults.map (fun r => r.response)
    if cfg.aggregation_strategy = "consensus" then
      aggregateConsensus env cfg responses
    else
      aggregateConsensus env cfg responses

/-- The sorted `results` array of one `orchestrate` call: decompose, run
one agent per sub-task, settle, and sort by `agent_id`. -/
def orchestrateResults (env : OrchEnv) (cfg : OrchConfig) (userInput : String) :
    List AgentResult :=
  let subtasks := decomposeTask env cfg userInput cfg.parallel_agents
  sortByAgentId (settleAll cfg.task_timeout 0 (settledPromises env 0 subtasks))

/-- `orchestrate`: aggregate the sorted results into the final answer. -/
def orchestrate (env : OrchEnv) (cfg : OrchConfig) (userInput : String) : String :=
  aggregateResults env cfg (orchestrateResults env cfg userInput)

/-- The output log accumulated by `fuel` further loop iterations against a
total scripted model, starting after `iter` iterations: the non-empty texts
of replies `iter+1, ..., iter+fuel` in order. -/
def collectContents (script : Nat → AssistantMessage) : Nat → Nat → List String
  | _, 0 => []
  | iter, fuel + 1 =>
    contentPush (script (iter + 1)).content ++ collectContents script (iter + 1) fuel

/-- A 2-agent configuration whose every sub-agent run raises. -/
def cfgC5 : OrchConfig := ⟨"sys", 1, 2, 60, "consensus", "QG", "SP"⟩

/-- Environment where decomposition and every sub-agent fail. -/
def envC5 : OrchEnv :=
  ⟨fun _ => .error "down", fun _ => .error "bad", fun _ _ => .error "dead",
   fun _ => 0, fun _ _ => .error "no", fun s => .ok s⟩

/-- A 2-agent configuration for the single-success scenario. -/
def cfgC6 : OrchConfig := ⟨"sys", 1, 2, 60, "consensus", "QG", "SP"⟩

/-- Environment where only agent 1 succeeds, with response `OnlyOne`. -/
def envC6 : OrchEnv :=
  ⟨fun _ => .error "down", fun _ => .error "bad",
   fun i _ => if i = 1 then .ok "OnlyOne" else .error "dead",
   fun _ => 3, fun _ _ => .error "no", fun s => .ok s⟩

/-- A 2-agent configuration for the no-timeout-status scenario. -/
def cfgC10 : OrchConfig := ⟨"sys", 1, 2, 60, "consensus", "QG", "SP"⟩

/-- Environment where agent 0 succeeds and agent 1 raises. -/
def envC10 : OrchEnv :=
  ⟨fun _ => .error "down", fun _ => .error "bad",
   fun i _ => if i = 0 then .ok "A" else .error "b",
   fun _ => 1, fun _ _ => .error "no", fun s => .ok s⟩

/-- A 2-agent configuration for the synthesis-failure scenario. -/
def cfgC7 : OrchConfig :=
  ⟨"sys", 1, 2, 60, "consensus", "QG",
   "\x7bnum_responses\x7d|\x7bagent_responses\x7d"⟩

/-- Environment where both sub-agents succeed (`R1`, `R2`) and the
synthesis agent's model call raises. -/
def envC7 : OrchEnv :=
  ⟨fun _ => .error "down", fun _ => .error "bad",
   fun i _ => .ok (if i = 0 then "R1" else "R2"),
   fun _ => 2, fun _ _ => .error "synthdown", fun s => .ok s⟩

/-- A 3-agent configuration whose synthesis template is
`\x7bnum_responses\x7d|\x7bagent_responses\x7d`. -/
def cfgC4 : OrchConfig :=
  ⟨"sys", 1, 3, 300, "consensus", "Q \x7buser_input\x7d \x7bnum_agents\x7d",
   "\x7bnum_responses\x7d|\x7bagent_responses\x7d"⟩

/-- Environment where decomposition yields three questions, the three
sub-agents answer `R1`, `R2`, `R3`, and the synthesis model replies
`Synth`. -/
def envC4 : OrchEnv :=
  ⟨fun _ => .ok " [\"q1\",\"q2\",\"q3\"] ",
   fun s => if s = "[\"q1\",\"q2\",\"q3\"]" then .ok ["q1", "q2", "q3"] else .error "bad",
   fun i _ => .ok (["R1", "R2", "R3"].getD i ""),
   fun _ => 7,
   fun _ _ => .ok ⟨some "Synth", none⟩,
   fun s => .ok s⟩

/-- A configuration with five parallel agents. -/
def cfgC1 : OrchConfig := ⟨"sys", 1, 5, 300, "consensus", "QG", "SP"⟩

/-- Environment whose decomposition run raises, forcing the fixed
four-template fallback. -/
def envC1 : OrchEnv :=
  ⟨fun _ => .error "down", fun _ => .error "bad", fun _ _ => .error "down",
   fun _ => 0, fun _ _ => .error "down", fun s => .ok s⟩

/-- A configuration with three parallel agents. -/
def cfgC1W : OrchConfig := ⟨"sys", 1, 3, 60, "consensus", "QG", "SP"⟩

/-- Environment whose decomposition run raises with three agents
configured, so the fallback still covers every index. -/
def envC1W : OrchEnv :=
  ⟨fun _ => .error "down", fun _ => .error "bad", fun i _ => .ok (toString i),
   fun _ => 1, fun _ _ => .error "down", fun s => .ok s⟩


theorem dispatchToolCalls_split (pa : ArgParser) (tm : ToolMapping)
    (pre : List ToolCall) (tcc : ToolCall) (post : List ToolCall)
    (hname : tcc.name = "mark_task_complete")
    (hpre : ∀ tc ∈ pre, tc.name ≠ "mark_task_complete") :
    dispatchToolCalls pa tm (pre ++ tcc :: post)
      = (pre.map (handleToolCall pa tm) ++ [handleToolCall pa tm tcc], true) := by
  induction pre with
  | nil => simp [dispatchToolCalls, hname]
  | cons p rest ih =>
    have hp : p.name ≠ "mark_task_complete" := hpre p (by simp)
    have ih' := ih (fun tc htc => hpre tc (by simp [htc]))
    simp [dispatchToolCalls, hp, ih']

theorem dispatchToolCalls_done_of_mem (pa : ArgParser) (tm : ToolMapping)
    (tcs : List ToolCall) (tc : ToolCall) (h : tc ∈ tcs)
    (hname : tc.name = "mark_task_complete") :
    (dispatchToolCalls pa tm tcs).2 = true := by
  induction tcs with
  | nil => cases h
  | cons p rest ih =>
    by_cases hp : p.name = "mark_task_complete"
    · simp [dispatchToolCalls, hp]
    · rcases List.mem_cons.mp h with h' | h'
      · exact absurd (h' ▸ hname) hp
      · simp [dispatchToolCalls, hp, ih h']

theorem dispatchToolCalls_not_done (pa : ArgParser) (tm : ToolMapping)
    (tcs : List ToolCall)
    (h : ∀ tc ∈ tcs, tc.name ≠ "mark_task_complete") :
    (dispatchToolCalls pa tm tcs).2 = false := by
  induction tcs with
  | nil => simp [dispatchToolCalls]
  | cons p rest ih =>
    have hp : p.name ≠ "mark_task_complete" := h p (by simp)
    simp [dispatchToolCalls, hp, ih (fun tc htc => h tc (by simp [htc]))]

/-- C2: if an assistant reply's ordered tool-call batch contains a call to
the completion-signal tool `mark_task_complete`, `run` returns immediately:
exactly one further model call is performed, later calls of the batch are
not dispatched (the final conversation ends at the completing call's tool
result), and the return value is the whole accumulated output log of
non-empty assistant texts joined by blank lines — not merely the completion
tool's payload.  Instantiated at the initial state, a first reply with a
completion call means exactly one model call overall and that turn's text
as the result. -/
theorem run_completion_returns_full_log
    (llm : LLMScript) (pa : ArgParser) (tools : List ToolSchema) (tm : ToolMapping)
    (fuel iter : Nat) (st : RunState) (c : Option String)
    (pre post : List ToolCall) (tcc : ToolCall)
    (hname : tcc.name = "mark_task_complete")
    (hpre : ∀ tc ∈ pre, tc.name ≠ "mark_task_complete")
    (hllm : llm (iter + 1) tools = .ok ⟨c, some (pre ++ tcc :: post)⟩) :
    (runLoop llm pa tools tm (fuel + 1) iter st).result
        = .ok (joinSep "\n\n" (st.fullResponseContent ++ contentPush c))
      ∧ (runLoop llm pa tools tm (fuel + 1) iter st).llmCalls = 1
      ∧ (runLoop llm pa tools tm (fuel + 1) iter st).finalMessages
          = st.messages
              ++ Message.assistant c (some (pre ++ tcc :: post))
                :: (pre.map (handleToolCall pa tm) ++ [handleToolCall pa tm tcc])
      ∧ (∀ sys task, iter = 0 → st = initState sys task →
          (runAgent llm pa tools tm (fuel + 1) sys task).result
              = .ok (joinSep "\n\n" (contentPush c))
            ∧ (runAgent llm pa tools tm (fuel + 1) sys task).llmCalls = 1) := by
  have hd := dispatchToolCalls_split pa tm pre tcc post hname hpre
  refine ⟨?_, ?_, ?_, ?_⟩
  · simp [runLoop, hllm, hd]
  · simp [runLoop, hllm, hd]
  · simp [runLoop, hllm, hd]
  · intro sys task hiter hst
    subst hiter hst
    constructor
    · simpa [runAgent, initState] using (by simp [runLoop, hllm, hd] :
        (runLoop llm pa tools tm (fuel + 1) 0 (initState sys task)).result
          = .ok (joinSep "\n\n" ((initState sys task).fullResponseContent ++ contentPush c)))
    · simp [runAgent, runLoop, hllm, hd]

theorem run_completion_returns_full_log_witness :
    (runAgent
        (fun _ _ => Except.ok ⟨some "Done",
          some [⟨"a", "calculate", "x"⟩, ⟨"b", "mark_task_complete", "y"⟩,
                ⟨"c", "search", "z"⟩]⟩)
        (fun s => Except.ok s) [] [] 10 "sys" "task").result = Except.ok "Done"
    ∧ (runAgent
        (fun _ _ => Except.ok ⟨some "Done",
          some [⟨"a", "calculate", "x"⟩, ⟨"b", "mark_task_complete", "y"⟩,
                ⟨"c", "search", "z"⟩]⟩)
        (fun s => Except.ok s) [] [] 10 "sys" "task").llmCalls = 1 := by
  have h := run_completion_returns_full_log
    (fun _ _ => Except.ok ⟨some "Done",
      some [⟨"a", "calculate", "x"⟩, ⟨"b", "mark_task_complete", "y"⟩,
            ⟨"c", "search", "z"⟩]⟩)
    (fun s => Except.ok s) [] [] 9 0 (initState "sys" "task") (some "Done")
    [⟨"a", "calculate", "x"⟩] [⟨"c", "search", "z"⟩]
    ⟨"b", "mark_task_complete", "y"⟩ rfl (by decide) rfl
  exact h.2.2.2 "sys" "task" rfl rfl

/-- C9: the completion check compares only the tool-call name against
`mark_task_complete`, independently of registry membership: at any point of
any run, an assistant reply containing a tool call of that name makes the
loop return immediately (one model call, accumulated log returned) even
when `lookupTool` finds no such tool — in which case the dispatched call
itself only produces an `Unknown tool` error payload.  Stripping the
completion tool from the mapping therefore does not prevent name-triggered
termination. -/
theorem run_completion_without_registration
    (llm : LLMScript) (pa : ArgParser) (tools : List ToolSchema) (tm : ToolMapping)
    (fuel iter : Nat) (st : RunState) (c : Option String) (tcs : List ToolCall)
    (hnone : lookupTool tm "mark_task_complete" = none)
    (hllm : llm (iter + 1) tools = .ok ⟨c, some tcs⟩)
    (hmem : ∃ tc ∈ tcs, tc.name = "mark_task_complete") :
    (runLoop llm pa tools tm (fuel + 1) iter st).result
        = .ok (joinSep "\n\n" (st.fullResponseContent ++ contentPush c))
      ∧ (runLoop llm pa tools tm (fuel + 1) iter st).llmCalls = 1
      ∧ ∀ tc : ToolCall, tc.name = "mark_task_complete" →
          (∃ a, pa tc.arguments = Except.ok a) →
          handleToolCall pa tm tc
            = Message.tool tc.id tc.name
                (ToolContent.error ("Unknown tool: " ++ tc.name)) := by
  obtain ⟨tc, htc, hn⟩ := hmem
  have hdone := dispatchToolCalls_done_of_mem pa tm tcs tc htc hn
  refine ⟨?_, ?_, ?_⟩
  · simp [runLoop, hllm, hdone]
  · simp [runLoop, hllm, hdone]
  · intro tc' hn' ⟨a, ha⟩
    rw [handleToolCall, ha, hn', hnone]

theorem run_completion_without_registration_witness :
    (runLoop (fun _ _ => Except.ok ⟨none, some [⟨"i", "mark_task_complete", "a"⟩]⟩)
        (fun s => Except.ok s) [] [] 3 0 (initState "s" "t")).llmCalls = 1
    ∧ handleToolCall (fun s => Except.ok s) [] ⟨"i", "mark_task_complete", "a"⟩
        = Message.tool "i" "mark_task_complete"
            (ToolContent.error "Unknown tool: mark_task_complete") := by
  have h := run_completion_without_registration
    (fun _ _ => Except.ok ⟨none, some [⟨"i", "mark_task_complete", "a"⟩]⟩)
    (fun s => Except.ok s) [] [] 2 0 (initState "s" "t") none
    [⟨"i", "mark_task_complete", "a"⟩] rfl rfl
    ⟨⟨"i", "mark_task_complete", "a"⟩, by decide, rfl⟩
  exact ⟨h.2.1, h.2.2 ⟨"i", "mark_task_complete", "a"⟩ rfl ⟨"a", rfl⟩⟩

theorem runLoop_exhaustion (script : Nat → AssistantMessage) (pa : ArgParser)
    (tools : List ToolSchema) (tm : ToolMapping)
    (h : ∀ k (tcs : List ToolCall), (script k).tool_calls = some tcs →
          ∀ tc ∈ tcs, tc.name ≠ "mark_task_complete") :
    ∀ fuel iter st,
      (runLoop (fun k _ => .ok (script k)) pa tools tm fuel iter st).llmCalls = fuel
      ∧ (runLoop (fun k _ => .ok (script k)) pa tools tm fuel iter st).result
          = .ok (if (st.fullResponseContent ++ collectContents script iter fuel).isEmpty
                 then maxIterationsMessage
                 else joinSep "\n\n"
                    (st.fullResponseContent ++ collectContents script iter fuel)) := by
  intro fuel
  induction fuel with
  | zero =>
    intro iter st
    constructor
    · rfl
    · simp [runLoop, collectContents]
  | succ fuel ih =>
    intro iter st
    rcases hsc : script (iter + 1) with ⟨c, otc⟩
    have hcol : collectContents script iter (fuel + 1)
        = contentPush c ++ collectContents script (iter + 1) fuel := by
      simp [collectContents, hsc]
    cases otc with
    | none =>
      have hrec := ih (iter + 1)
        ⟨st.messages ++ [Message.assistant c none], st.fullResponseContent ++ contentPush c⟩
      constructor
      · simp [runLoop, hsc, hrec.1]
      · simp only [runLoop, hsc]
        simp [hrec.2, hcol, List.append_assoc]
    | some tcs =>
      have htc : (script (iter + 1)).tool_calls = some tcs := by rw [hsc]
      have hnd := dispatchToolCalls_not_done pa tm tcs (h (iter + 1) tcs htc)
      have hrec := ih (iter + 1)
        ⟨st.messages ++ Message.assistant c (some tcs) :: (dispatchToolCalls pa tm tcs).1,
          st.fullResponseContent ++ contentPush c⟩
      constructor
      · simp [runLoop, hsc, hnd, hrec.1]
      · simp only [runLoop, hsc]
        simp [hnd, hrec.2, hcol, List.append_assoc]

/-- C3: against a scripted model that always answers and never issues a
completion-signal call, `run` performs exactly `max_iterations` model calls
and returns the accumulated non-empty assistant texts joined by blank
lines, or the fixed maximum-iterations message when nothing accumulated.
Concretely, with `max_iterations = 5`, no tool calls, and a model always
replying `"Response"`, the result is the five responses joined by blank
lines after five model calls. -/
theorem run_exhaustion_returns_accumulated (script : Nat → AssistantMessage)
    (pa : ArgParser) (tools : List ToolSchema) (tm : ToolMapping)
    (maxIter : Nat) (sys task : String)
    (h : ∀ k (tcs : List ToolCall), (script k).tool_calls = some tcs →
          ∀ tc ∈ tcs, tc.name ≠ "mark_task_complete") :
    (runAgent (fun k _ => .ok (script k)) pa tools tm maxIter sys task).llmCalls = maxIter
    ∧ (runAgent (fun k _ => .ok (script k)) pa tools tm maxIter sys task).result
        = .ok (if (collectContents script 0 maxIter).isEmpty then maxIterationsMessage
               else joinSep "\n\n" (collectContents script 0 maxIter))
    ∧ (runAgent (fun _ _ => .ok ⟨some "Response", none⟩) pa tools tm 5 sys task).result
        = .ok "Response\n\nResponse\n\nResponse\n\nResponse\n\nResponse"
    ∧ (runAgent (fun _ _ => .ok ⟨some "Response", none⟩) pa tools tm 5 sys task).llmCalls = 5 := by
  have hmain := runLoop_exhaustion script pa tools tm h maxIter 0 (initState sys task)
  have hresp := runLoop_exhaustion (fun _ => ⟨some "Response", none⟩) pa tools tm
    (by intro k tcs htcs; simp at htcs) 5 0 (initState sys task)
  refine ⟨hmain.1, ?_, ?_, hresp.1⟩
  · simpa [runAgent, initState] using hmain.2
  · simpa [runAgent, initState, collectContents, contentPush, joinSep] using hresp.2

theorem run_exhaustion_returns_accumulated_witness :
    (runAgent (fun _ _ => Except.ok ⟨some "Response", none⟩)
        (fun s => Except.ok s) [] [] 5 "sys" "task").result
      = Except.ok "Response\n\nResponse\n\nResponse\n\nResponse\n\nResponse"
    ∧ (runAgent (fun _ _ => Except.ok ⟨some "Response", none⟩)
        (fun s => Except.ok s) [] [] 5 "sys" "task").llmCalls = 5 := by
  have h := run_exhaustion_returns_accumulated (fun _ => ⟨some "Response", none⟩)
    (fun s => Except.ok s) [] [] 5 "sys" "task"
    (by intro k tcs htcs; simp at htcs)
  exact ⟨h.2.2.1, h.2.2.2⟩

theorem runLoop_step_error (llm : LLMScript) (pa : ArgParser) (tools : List ToolSchema)
    (tm : ToolMapping) (fuel iter : Nat) (st : RunState) (e : String)
    (hm : llm (iter + 1) tools = .error e) :
    runLoop llm pa tools tm (fuel + 1) iter st
      = ⟨.error ("LLM call failed: " ++ e), 1, st.messages⟩ := by
  simp [runLoop, hm]

theorem runLoop_step_none (llm : LLMScript) (pa : ArgParser) (tools : List ToolSchema)
    (tm : ToolMapping) (fuel iter : Nat) (st : RunState) (c : Option String)
    (hm : llm (iter + 1) tools = .ok ⟨c, none⟩) :
    runLoop llm pa tools tm (fuel + 1) iter st
      = ⟨(runLoop llm pa tools tm fuel (iter + 1)
            ⟨st.messages ++ [Message.assistant c none],
              st.fullResponseContent ++ contentPush c⟩).result,
         (runLoop llm pa tools tm fuel (iter + 1)
            ⟨st.messages ++ [Message.assistant c none],
              st.fullResponseContent ++ contentPush c⟩).llmCalls + 1,
         (runLoop llm pa tools tm fuel (iter + 1)
            ⟨st.messages ++ [Message.assistant c none],
              st.fullResponseContent ++ contentPush c⟩).finalMessages⟩ := by
  simp [runLoop, hm]

theorem runLoop_step_some_cont (llm : LLMScript) (pa : ArgParser)
    (tools : List ToolSchema) (tm : ToolMapping) (fuel iter : Nat) (st : RunState)
    (c : Option String) (tcs : List ToolCall)
    (hm : llm (iter + 1) tools = .ok ⟨c, some tcs⟩)
    (hnd : (dispatchToolCalls pa tm tcs).2 = false) :
    runLoop llm pa tools tm (fuel + 1) iter st
      = ⟨(runLoop llm pa tools tm fuel (iter + 1)
            ⟨st.messages ++ Message.assistant c (some tcs) :: (dispatchToolCalls pa tm tcs).1,
              st.fullResponseContent ++ contentPush c⟩).result,
         (runLoop llm pa tools tm fuel (iter + 1)
            ⟨st.messages ++ Message.assistant c (some tcs) :: (dispatchToolCalls pa tm tcs).1,
              st.fullResponseContent ++ contentPush c⟩).llmCalls + 1,
         (runLoop llm pa tools tm fuel (iter + 1)
            ⟨st.messages ++ Message.assistant c (some tcs) :: (dispatchToolCalls pa tm tcs).1,
              st.fullResponseContent ++ contentPush c⟩).finalMessages⟩ := by
  simp [runLoop, hm, hnd]

theorem runLoop_step_some_done (llm : LLMScript) (pa : ArgParser)
    (tools : List ToolSchema) (tm : ToolMapping) (fuel iter : Nat) (st : RunState)
    (c : Option String) (tcs : List ToolCall)
    (hm : llm (iter + 1) tools = .ok ⟨c, some tcs⟩)
    (hd : (dispatchToolCalls pa tm tcs).2 = true) :
    runLoop llm pa tools tm (fuel + 1) iter st
      = ⟨.ok (joinSep "\n\n" (st.fullResponseContent ++ contentPush c)), 1,
         (st.messages ++ Message.assistant c (some tcs) :: (dispatchToolCalls pa tm tcs).1)⟩ := by
  simp [runLoop, hm, hd]

theorem runLoop_error_iff (llm : LLMScript) (pa : ArgParser) (tools : List ToolSchema)
    (tm : ToolMapping) :
    ∀ fuel iter st,
      ((∃ e, (runLoop llm pa tools tm fuel iter st).result = .error e)
        ↔ 1 ≤ (runLoop llm pa tools tm fuel iter st).llmCalls
          ∧ ∃ e, llm (iter + (runLoop llm pa tools tm fuel iter st).llmCalls) tools
              = .error e) := by
  intro fuel
  induction fuel with
  | zero => intro iter st; simp [runLoop]
  | succ fuel ih =>
    intro iter st
    cases hm : llm (iter + 1) tools with
    | error e =>
      rw [runLoop_step_error llm pa tools tm fuel iter st e hm]
      simp [hm]
    | ok am =>
      rcases am with ⟨c, otc⟩
      have step : ∀ st' : RunState,
          ((∃ e, (runLoop llm pa tools tm fuel (iter + 1) st').result = .error e)
            ↔ 1 ≤ (runLoop llm pa tools tm fuel (iter + 1) st').llmCalls + 1
              ∧ ∃ e, llm (iter + ((runLoop llm pa tools tm fuel (iter + 1) st').llmCalls + 1)) tools
                  = .error e) := by
        intro st'
        rw [ih (iter + 1) st']
        constructor
        · rintro ⟨hn, e, he⟩
          refine ⟨Nat.le_succ_of_le hn, e, ?_⟩
          rw [show iter + ((runLoop llm pa tools tm fuel (iter + 1) st').llmCalls + 1)
              = iter + 1 + (runLoop llm pa tools tm fuel (iter + 1) st').llmCalls from by omega]
          exact he
        · rintro ⟨-, e, he⟩
          rw [show iter + ((runLoop llm pa tools tm fuel (iter + 1) st').llmCalls + 1)
              = iter + 1 + (runLoop llm pa tools tm fuel (iter + 1) st').llmCalls from by omega] at he
          rcases Nat.eq_zero_or_pos (runLoop llm pa tools tm fuel (iter + 1) st').llmCalls with h0 | h1
          · rw [h0, Nat.add_zero, hm] at he
            exact absurd he.symm (by simp)
          · exact ⟨h1, e, he⟩
      cases otc with
      | none =>
        rw [runLoop_step_none llm pa tools tm fuel iter st c hm]
        exact step _
      | some tcs =>
        cases hd : (dispatchToolCalls pa tm tcs).2 with
        | true =>
          rw [runLoop_step_some_done llm pa tools tm fuel iter st c tcs hm hd]
          simp [hm]
        | false =>
          rw [runLoop_step_some_cont llm pa tools tm fuel iter st c tcs hm hd]
          exact step _

/-- C8: `run` raises exactly when a language-model call made during the run
raises (the last call performed, wrapped by `callLLM`); per-tool-call
failures never abort it: an unregistered tool name (with parseable
arguments) yields a tool-result message with an `Unknown tool` error
payload, and a registered tool whose invocation raises yields one with a
`Tool execution failed` error payload — in both cases the loop merely
continues. -/
theorem run_error_propagation (llm : LLMScript) (pa : ArgParser)
    (tools : List ToolSchema) (tm : ToolMapping) (maxIter : Nat) (sys task : String) :
    ((∃ e, (runAgent llm pa tools tm maxIter sys task).result = .error e)
      ↔ 1 ≤ (runAgent llm pa tools tm maxIter sys task).llmCalls
        ∧ ∃ e, llm (runAgent llm pa tools tm maxIter sys task).llmCalls tools = .error e)
    ∧ (∀ (tc : ToolCall) (a : String), pa tc.arguments = .ok a →
        lookupTool tm tc.name = none →
        handleToolCall pa tm tc
          = Message.tool tc.id tc.name (ToolContent.error ("Unknown tool: " ++ tc.name)))
    ∧ (∀ (tc : ToolCall) (a : String) (f : ToolFn) (e : String),
        pa tc.arguments = .ok a → lookupTool tm tc.name = some f → f a = .error e →
        handleToolCall pa tm tc
          = Message.tool tc.id tc.name
              (ToolContent.error ("Tool execution failed: " ++ e))) := by
  refine ⟨?_, ?_, ?_⟩
  · have h := runLoop_error_iff llm pa tools tm maxIter 0 (initState sys task)
    simpa [runAgent] using h
  · intro tc a ha hnone
    rw [handleToolCall, ha, hnone]
  · intro tc a f e ha hf he
    simp [handleToolCall, ha, hf, he]

theorem run_error_propagation_witness :
    (∃ e, (runAgent (fun _ _ => Except.error "boom") (fun s => Except.ok s) [] [] 3
        "s" "t").result = Except.error e)
    ∧ handleToolCall (fun s => Except.ok s) [] ⟨"i", "nope", "a"⟩
        = Message.tool "i" "nope" (ToolContent.error "Unknown tool: nope")
    ∧ handleToolCall (fun s => Except.ok s)
        [("boomTool", fun _ => Except.error "bad")] ⟨"i", "boomTool", "a"⟩
        = Message.tool "i" "boomTool"
            (ToolContent.error "Tool execution failed: bad") := by
  have h := run_error_propagation (fun _ _ => Except.error "boom")
    (fun s => Except.ok s) [] [] 3 "s" "t"
  have h2 := run_error_propagation (fun _ _ => Except.error "boom")
    (fun s => Except.ok s) [] [("boomTool", fun _ => Except.error "bad")] 3 "s" "t"
  refine ⟨?_, ?_, ?_⟩
  · exact h.1.mpr ⟨by decide, "boom", rfl⟩
  · exact h.2.1 ⟨"i", "nope", "a"⟩ "a" rfl rfl
  · exact h2.2.2 ⟨"i", "boomTool", "a"⟩ "a" (fun _ => Except.error "bad") "bad" rfl rfl rfl

theorem runAgentParallel_agent_id (env : OrchEnv) (i : Nat) (st : String) :
    (runAgentParallel env i st).agent_id = i := by
  cases h : env.subAgentRun i st <;> simp [runAgentParallel, h]

theorem runAgentParallel_status (env : OrchEnv) (i : Nat) (st : String) :
    (runAgentParallel env i st).status = "success"
      ∨ (runAgentParallel env i st).status = "error" := by
  cases h : env.subAgentRun i st with
  | ok r => left; simp [runAgentParallel, h]
  | error e => right; simp [runAgentParallel, h]

theorem settleAll_ids (env : OrchEnv) (t : Nat) :
    ∀ (sts : List String) (i : Nat),
      (settleAll t i (settledPromises env i sts)).map AgentResult.agent_id
        = List.range' i sts.length := by
  intro sts
  induction sts with
  | nil => intro i; rfl
  | cons s rest ih =>
    intro i
    simp [settledPromises, settleAll, runAgentParallel_agent_id, ih (i + 1),
      List.range'_succ]

theorem settleAll_status (env : OrchEnv) (t : Nat) :
    ∀ (sts : List String) (i : Nat) (r : AgentResult),
      r ∈ settleAll t i (settledPromises env i sts) →
      r.status = "success" ∨ r.status = "error" := by
  intro sts
  induction sts with
  | nil => intro i r h; cases h
  | cons s rest ih =>
    intro i r h
    simp only [settledPromises, settleAll] at h
    rcases List.mem_cons.mp h with h' | h'
    · subst h'; exact runAgentParallel_status env i s
    · exact ih (i + 1) r h'

theorem mem_insertById (r x : AgentResult) (l : List AgentResult) :
    x ∈ insertById r l ↔ x = r ∨ x ∈ l := by
  induction l with
  | nil => simp [insertById]
  | cons y ys ih =>
    by_cases hle : r.agent_id ≤ y.agent_id
    · simp [insertById, hle]
    · simp [insertById, hle, ih]
      tauto

theorem mem_sortByAgentId (x : AgentResult) (l : List AgentResult) :
    x ∈ sortByAgentId l ↔ x ∈ l := by
  induction l with
  | nil => simp [sortByAgentId]
  | cons r rs ih => simp [sortByAgentId, mem_insertById, ih]

theorem sortByAgentId_eq_of_range' :
    ∀ (l : List AgentResult) (i n : Nat),
      l.map AgentResult.agent_id = List.range' i n → sortByAgentId l = l := by
  intro l
  induction l with
  | nil => intro i n _; rfl
  | cons r rs ih =>
    intro i n h
    cases n with
    | zero => simp [List.range'] at h
    | succ n =>
      rw [List.range'_succ, List.map_cons] at h
      injection h with h1 h2
      have hrs := ih (i + 1) n h2
      cases rs with
      | nil => simp [sortByAgentId, insertById]
      | cons y ys =>
        have hy : y.agent_id = i + 1 := by
          cases n with
          | zero => simp [List.range'] at h2
          | succ m =>
            rw [List.range'_succ, List.map_cons] at h2
            injection h2 with hy _
        rw [sortByAgentId, hrs, insertById, if_pos (by omega : r.agent_id ≤ y.agent_id)]

theorem orchestrateResults_ids (env : OrchEnv) (cfg : OrchConfig) (u : String) :
    (orchestrateResults env cfg u).map AgentResult.agent_id
      = List.range (decomposeTask env cfg u cfg.parallel_agents).length := by
  have hids := settleAll_ids env cfg.task_timeout
    (decomposeTask env cfg u cfg.parallel_agents) 0
  simp only [orchestrateResults]
  rw [sortByAgentId_eq_of_range' _ 0 _ hids, hids, List.range_eq_range']

theorem fallbackSubtasks_length (u : String) (n : Nat) :
    (fallbackSubtasks u n).length = min n 4 := by
  simp [fallbackSubtasks]

theorem decomposeTask_length_of_le_four (env : OrchEnv) (cfg : OrchConfig)
    (u : String) (n : Nat) (h : n ≤ 4) :
    (decomposeTask env cfg u n).length = n := by
  simp only [decomposeTask]
  split
  · simp [fallbackSubtasks_length, Nat.min_eq_left h]
  · split
    · simp [fallbackSubtasks_length, Nat.min_eq_left h]
    · split
      · simp [fallbackSubtasks_length, Nat.min_eq_left h]
      · omega

/-- C5: when every dispatched sub-agent's result has a status other than
`success`, `orchestrate` returns exactly the fixed all-failed message (and,
being a total function of its environment, never raises); no synthesis is
attempted because aggregation short-circuits before the consensus step. -/
theorem orchestrate_all_failed (env : OrchEnv) (cfg : OrchConfig) (u : String)
    (h : ∀ r ∈ orchestrateResults env cfg u, r.status ≠ "success") :
    orchestrate env cfg u
      = "All agents failed to provide results. Please try again." := by
  have hfil : (orchestrateResults env cfg u).filter (fun r => r.status == "success")
      = [] := by
    rw [List.filter_eq_nil_iff]
    intro a ha
    simpa using h a ha
  simp [orchestrate, aggregateResults, hfil]

theorem orchestrate_all_failed_witness :
    orchestrate envC5 cfgC5 "t"
      = "All agents failed to provide results. Please try again." :=
  orchestrate_all_failed envC5 cfgC5 "t" (by decide)

/-- C6: when exactly one dispatched sub-agent's result is successful,
`orchestrate` returns that agent's raw response verbatim; no synthesis
model call is made — the outcome is unchanged under any replacement of the
synthesis agent's model script. -/
theorem orchestrateResults_synthLLM (env : OrchEnv) (llm' : LLMScript)
    (cfg : OrchConfig) (u : String) :
    orchestrateResults { env with synthLLM := llm' } cfg u
      = orchestrateResults env cfg u := by
  have hsp : ∀ (sts : List String) (i : Nat),
      settledPromises { env with synthLLM := llm' } i sts = settledPromises env i sts := by
    intro sts
    induction sts with
    | nil => intro i; rfl
    | cons s rest ih => intro i; simp [settledPromises, runAgentParallel, ih (i + 1)]
  simp only [orchestrateResults]
  rw [show decomposeTask { env with synthLLM := llm' } cfg u cfg.parallel_agents
      = decomposeTask env cfg u cfg.parallel_agents from rfl, hsp]

theorem orchestrate_single_success (env : OrchEnv) (cfg : OrchConfig) (u : String)
    (r : AgentResult)
    (h : (orchestrateResults env cfg u).filter (fun x => x.status == "success") = [r]) :
    orchestrate env cfg u = r.response
    ∧ ∀ llm' : LLMScript,
        orchestrate { env with synthLLM := llm' } cfg u = r.response := by
  have key : ∀ env2 : OrchEnv,
      orchestrateResults env2 cfg u = orchestrateResults env cfg u →
      orchestrate env2 cfg u = r.response := by
    intro env2 he
    simp [orchestrate, aggregateResults, he, h, aggregateConsensus, ite_self]
  exact ⟨key env rfl, fun llm' => key _ (orchestrateResults_synthLLM env llm' cfg u)⟩

theorem orchestrate_single_success_witness :
    orchestrate envC6 cfgC6 "t" = "OnlyOne"
    ∧ orchestrate { envC6 with synthLLM := fun _ _ => .ok ⟨some "X", none⟩ } cfgC6 "t"
        = "OnlyOne" := by
  have h := orchestrate_single_success envC6 cfgC6 "t" ⟨1, "success", "OnlyOne", 3⟩
    (by decide)
  exact ⟨h.1, h.2 _⟩

/-- C10: `runAgentParallel` always fulfills with a result whose status is
`success` or `error` (its whole body sits inside `try`/`catch`, both paths
returning an `AgentResult`), so the rejected-settlement branch of
`orchestrate` is unreachable and no result of an orchestration ever has
status `timeout`. -/
theorem orchestrate_no_timeout_status (env : OrchEnv) (cfg : OrchConfig) (u : String) :
    (∀ (i : Nat) (st : String),
        (runAgentParallel env i st).status = "success"
          ∨ (runAgentParallel env i st).status = "error")
    ∧ ∀ r ∈ orchestrateResults env cfg u, r.status ≠ "timeout" := by
  constructor
  · intro i st; exact runAgentParallel_status env i st
  · intro r hr
    have hr' : r ∈ settleAll cfg.task_timeout 0
        (settledPromises env 0 (decomposeTask env cfg u cfg.parallel_agents)) := by
      simpa [orchestrateResults, mem_sortByAgentId] using hr
    rcases settleAll_status env cfg.task_timeout _ 0 r hr' with h | h <;> rw [h] <;> decide

theorem orchestrate_no_timeout_status_witness :
    (⟨1, "error", "Error: b", 0⟩ : AgentResult).status ≠ "timeout" :=
  (orchestrate_no_timeout_status envC10 cfgC10 "t").2 ⟨1, "error", "Error: b", 0⟩
    (by decide)

theorem mem_fallback_infix :
    ∀ (rs : List String) (i : Nat) (r : String), r ∈ rs →
      r.data <:+: (joinSep "\n" (combinedFallbackFrom i rs)).data := by
  intro rs
  induction rs with
  | nil => intro i r h; cases h
  | cons x rest ih =>
    intro i r h
    rcases List.mem_cons.mp h with h' | h'
    · subst h'
      cases rest with
      | nil =>
        refine ⟨("=== Agent " ++ toString (i + 1) ++ " Response ===").data ++ "\n".data,
          "\n".data ++ "".data, ?_⟩
        simp [combinedFallbackFrom, joinSep, String.data_append]
      | cons y ys =>
        refine ⟨("=== Agent " ++ toString (i + 1) ++ " Response ===").data ++ "\n".data,
          "\n".data ++ "".data ++ "\n".data
            ++ (joinSep "\n" (combinedFallbackFrom (i + 1) (y :: ys))).data, ?_⟩
        simp [combinedFallbackFrom, joinSep, String.data_append]
    · cases rest with
      | nil => cases h'
      | cons y ys =>
        obtain ⟨s, t, hst⟩ := ih (i + 1) r h'
        refine ⟨("=== Agent " ++ toString (i + 1) ++ " Response ===").data ++ "\n".data
            ++ x.data ++ "\n".data ++ "".data ++ "\n".data ++ s, t, ?_⟩
        have hstep : (joinSep "\n" (combinedFallbackFrom i (x :: y :: ys))).data
            = ("=== Agent " ++ toString (i + 1) ++ " Response ===").data ++ "\n".data
                ++ x.data ++ "\n".data ++ "".data ++ "\n".data
                ++ (joinSep "\n" (combinedFallbackFrom (i + 1) (y :: ys))).data := by
          simp [combinedFallbackFrom, joinSep, String.data_append]
        rw [hstep, ← hst]
        simp [List.append_assoc]

/-- C7: when the synthesis model call raises, `orchestrate` does not
propagate the failure: it returns the plain concatenation, joined by
newlines and in ascending index order, of 1-indexed
`=== Agent i Response ===` header lines each followed by the corresponding
successful response and a blank entry; consequently the returned text
contains every successful response's full text. -/
theorem orchestrate_synthesis_fallback (env : OrchEnv) (cfg : OrchConfig) (u : String)
    (h2 : 2 ≤ ((orchestrateResults env cfg u).filter
        (fun x => x.status == "success")).length)
    (hsf : ∃ e, runSynthesis env cfg (((orchestrateResults env cfg u).filter
        (fun x => x.status == "success")).map (fun r => r.response)) = .error e) :
    orchestrate env cfg u
        = joinSep "\n" (combinedFallback (((orchestrateResults env cfg u).filter
            (fun x => x.status == "success")).map (fun r => r.response)))
    ∧ ∀ r ∈ (orchestrateResults env cfg u).filter (fun x => x.status == "success"),
        r.response.data <:+: (orchestrate env cfg u).data := by
  obtain ⟨e, he⟩ := hsf
  obtain ⟨a, b, l, hab⟩ : ∃ a b l,
      (orchestrateResults env cfg u).filter (fun x => x.status == "success")
        = a :: b :: l := by
    rcases hfil : (orchestrateResults env cfg u).filter (fun x => x.status == "success")
      with _ | ⟨a, _ | ⟨b, l⟩⟩
    · rw [hfil] at h2; simp at h2
    · rw [hfil] at h2; simp at h2
    · exact ⟨a, b, l, hfil⟩
  rw [hab] at he
  simp only [List.map_cons] at he
  have hmain : orchestrate env cfg u
      = joinSep "\n" (combinedFallback (((orchestrateResults env cfg u).filter
          (fun x => x.status == "success")).map (fun r => r.response))) := by
    simp only [orchestrate, aggregateResults, hab, List.map_cons]
    simp [aggregateConsensus, he, ite_self]
  refine ⟨hmain, ?_⟩
  intro r hr
  rw [hmain]
  exact mem_fallback_infix _ 0 r.response (List.mem_map_of_mem _ hr)

theorem orchestrate_synthesis_fallback_witness :
    orchestrate envC7 cfgC7 "t"
      = "=== Agent 1 Response ===\nR1\n\n=== Agent 2 Response ===\nR2\n"
    ∧ "R1".data <:+: (orchestrate envC7 cfgC7 "t").data := by
  have h := orchestrate_synthesis_fallback envC7 cfgC7 "t" (by decide)
    ⟨"LLM call failed: synthdown", rfl⟩
  exact ⟨h.1, h.2 ⟨0, "success", "R1", 2⟩ (by decide)⟩

/-- C4: with at least two successful results, `orchestrate` runs the
synthesis agent — whose tool list and tool mapping are both emptied
entirely — on the synthesis prompt (template with the response count and
the concatenated 1-indexed `=== AGENT i RESPONSE ===` blocks substituted)
and returns its output.  Concretely, for successful responses `R1`, `R2`,
`R3` the substituted block text is as the specification spells it, it
occurs inside the synthesis prompt, and a synthesis reply `Synth` makes
`orchestrate` return `Synth`. -/
theorem orchestrate_synthesis (env : OrchEnv) (cfg : OrchConfig) (u : String)
    (finalAnswer : String)
    (h2 : 2 ≤ ((orchestrateResults env cfg u).filter
        (fun x => x.status == "success")).length)
    (hok : runSynthesis env cfg (((orchestrateResults env cfg u).filter
        (fun x => x.status == "success")).map (fun r => r.response))
      = .ok finalAnswer) :
    orchestrate env cfg u = finalAnswer
    ∧ (∀ rs : List String, runSynthesis env cfg rs
        = (runAgent env.synthLLM env.synthParse [] [] cfg.max_iterations
            cfg.system_prompt (synthesisPrompt cfg rs)).result)
    ∧ buildAgentResponses ["R1", "R2", "R3"]
        = "=== AGENT 1 RESPONSE ===\nR1\n\n=== AGENT 2 RESPONSE ===\nR2\n\n=== AGENT 3 RESPONSE ===\nR3\n\n"
    ∧ ("=== AGENT 1 RESPONSE ===\nR1\n\n=== AGENT 2 RESPONSE ===\nR2\n\n=== AGENT 3 RESPONSE ===\nR3\n\n").data
        <:+: (synthesisPrompt cfgC4 ["R1", "R2", "R3"]).data
    ∧ orchestrate envC4 cfgC4 "task" = "Synth" := by
  obtain ⟨a, b, l, hab⟩ : ∃ a b l,
      (orchestrateResults env cfg u).filter (fun x => x.status == "success")
        = a :: b :: l := by
    rcases hfil : (orchestrateResults env cfg u).filter (fun x => x.status == "success")
      with _ | ⟨a, _ | ⟨b, l⟩⟩
    · rw [hfil] at h2; simp at h2
    · rw [hfil] at h2; simp at h2
    · exact ⟨a, b, l, hfil⟩
  rw [hab] at hok
  simp only [List.map_cons] at hok
  refine ⟨?_, fun rs => rfl, by rfl, ?_, by rfl⟩
  · simp only [orchestrate, aggregateResults, hab, List.map_cons]
    simp [aggregateConsensus, hok, ite_self]
  · have hp : synthesisPrompt cfgC4 ["R1", "R2", "R3"]
        = "3|=== AGENT 1 RESPONSE ===\nR1\n\n=== AGENT 2 RESPONSE ===\nR2\n\n=== AGENT 3 RESPONSE ===\nR3\n\n" := by
      rfl
    rw [hp]
    decide

theorem orchestrate_synthesis_witness :
    orchestrate envC4 cfgC4 "task" = "Synth" :=
  (orchestrate_synthesis envC4 cfgC4 "task" "Synth" (by decide) rfl).1

/-- C1, counterexample: with `parallel_agents = 5` and decomposition
falling back to the fixed template set, the fallback holds only four
entries, so only four sub-tasks are dispatched and the Agent Result
indices are `0..3` — they do not cover `0..N-1`. -/
theorem orchestrate_indices_counterexample :
    cfgC1.parallel_agents = 5
    ∧ (orchestrateResults envC1 cfgC1 "t").map AgentResult.agent_id = [0, 1, 2, 3]
    ∧ ¬ ((orchestrateResults envC1 cfgC1 "t").map AgentResult.agent_id
          = List.range cfgC1.parallel_agents) := by
  refine ⟨rfl, by rfl, by decide⟩

/-- C1, amended: the Agent Results of one `orchestrate` call have pairwise
distinct indices equal to the dispatched indices, covering exactly
`0..K-1` where `K` is the number of dispatched sub-tasks; `K` equals the
configured agent count `N` whenever decomposition returns `N` questions or
`N ≤ 4`, but the fixed fallback template set has only four entries, so a
fallback with `N > 4` dispatches only `min N 4 = 4` sub-tasks. -/
theorem orchestrate_result_indices (env : OrchEnv) (cfg : OrchConfig) (u : String) :
    (orchestrateResults env cfg u).map AgentResult.agent_id
      = List.range (decomposeTask env cfg u cfg.parallel_agents).length
    ∧ ((orchestrateResults env cfg u).map AgentResult.agent_id).Nodup
    ∧ ((decomposeTask env cfg u cfg.parallel_agents).length = cfg.parallel_agents
        ∨ cfg.parallel_agents ≤ 4 →
       (orchestrateResults env cfg u).map AgentResult.agent_id
         = List.range cfg.parallel_agents) := by
  refine ⟨orchestrateResults_ids env cfg u, ?_, ?_⟩
  · rw [orchestrateResults_ids]; exact List.nodup_range _
  · intro h
    rcases h with h | h
    · rw [orchestrateResults_ids, h]
    · rw [orchestrateResults_ids, decomposeTask_length_of_le_four env cfg u _ h]

theorem orchestrate_result_indices_witness :
    (orchestrateResults envC1W cfgC1W "t").map AgentResult.agent_id
      = List.range 3 :=
  (orchestrate_result_indices envC1W cfgC1W "t").2.2 (Or.inr (by decide))
